import Mathlib

/-!
Shallow embedding of `src/main.py` (class `GameOfLifePygame`), an interactive
Conway's Game of Life with a pan/zoom viewport.

Modelling conventions:
* numpy integer cells become `Int` (0 = DEAD, 1 = ALIVE); the grid is a
  `List (List Int)` in row-major order, as `self.grid` is a `(height, width)`
  array.
* Python arbitrary-precision `int` becomes `Int`; Python `float` arithmetic in
  `zoom_at` is modelled exactly over `ℚ` (the inputs are integers, so all
  intermediate values are rationals).
* Python `//` on integers is floor division: `Int.fdiv`.
* Python `int(x)` on a number truncates toward zero: `pyTrunc`.
* `np.random.choice` is modelled by an injected oracle `fill : Nat → Nat → Bool`
  giving each sampled cell, plus numpy's own argument validation (a negative
  entry in `p` and a negative dimension each raise `ValueError`).
-/

namespace GoL

/-- The mutable state of `GameOfLifePygame` (fields set in `__init__`,
lines 7-54 of `src/main.py`).  Rendering-only fields (colors, font, clock)
are omitted; `width`/`height` are the validated grid dimensions. -/
structure GameState where
  width : Nat
  height : Nat
  cell_size : Int
  grid : List (List Int)
  screen_width : Int
  screen_height : Int
  running : Bool
  paused : Bool
  generation : Nat
  fps : Int
  offset_x : Int
  offset_y : Int
  pan_speed : Int
  min_cell_size : Int
  max_cell_size : Int
deriving Repr, DecidableEq

/-- Value of grid entry `(r, c)`; out-of-range indices read as 0 (DEAD).
This is the plain 2-D array read `grid[r, c]`, totalized with 0 outside. -/
def cellAt (g : List (List Int)) (r c : Int) : Int :=
  if 0 ≤ r ∧ 0 ≤ c then (g.getD r.toNat []).getD c.toNat 0 else 0

/-- Entry `(a, b)` of `np.pad(grid, pad_width=1, mode="constant",
constant_values=0)` for an `h × w` grid (`count_neighbors`, line 58):
the padded array has shape `(h+2, w+2)` and `padded[a][b] = grid[a-1][b-1]`
inside, 0 on the pad ring. -/
def paddedAt (g : List (List Int)) (h w : Nat) (a b : Nat) : Int :=
  if 1 ≤ a ∧ a ≤ h ∧ 1 ≤ b ∧ b ≤ w then
    cellAt g ((a : Int) - 1) ((b : Int) - 1)
  else 0

/-- `count_neighbors` (lines 56-67): entry `(r, c)` of the neighbor-count
array.  The loops add `padded[i : i+h, j : j+w]` for `i, j ∈ {0,1,2}`,
skipping `(1,1)`; entry `(r, c)` of that slice is `padded[i+r][j+c]`. -/
def count_neighbors (g : List (List Int)) (h w : Nat) (r c : Nat) : Int :=
  ((List.range 3).map fun i =>
    ((List.range 3).map fun j =>
      if i = 1 ∧ j = 1 then 0 else paddedAt g h w (i + r) (j + c)).sum).sum

/-- Per-cell result of `step` (lines 69-78): `new_grid` starts at 0 and the
two mask assignments set to 1 exactly the cells with
`(grid == 1) & (neighbors ∈ {2,3})` or `(grid == 0) & (neighbors == 3)`. -/
def nextCell (g : List (List Int)) (h w : Nat) (r c : Nat) : Int :=
  let n := count_neighbors g h w r c
  let cur := cellAt g (r : Int) (c : Int)
  if (cur = 1 ∧ (n = 2 ∨ n = 3)) ∨ (cur = 0 ∧ n = 3) then 1 else 0

/-- `step` (lines 69-78): whole-grid update from a snapshot of the previous
grid, then `generation += 1`. -/
def step (s : GameState) : GameState :=
  { s with
    grid := (List.range s.height).map fun r =>
      (List.range s.width).map fun c => nextCell s.grid s.height s.width r c,
    generation := s.generation + 1 }

/-- The 8 Moore-neighborhood offsets. -/
def mooreOffsets : List (Int × Int) :=
  [(-1, -1), (-1, 0), (-1, 1), (0, -1), (0, 1), (1, -1), (1, 0), (1, 1)]

/-- Spec-side definition, following the specification's words: the number of
ALIVE cells among the 8 Moore neighbors of `(r, c)`, cells outside the grid
bounds counted as DEAD (`cellAt` reads 0 there). -/
def specMooreCount (g : List (List Int)) (r c : Nat) : Int :=
  (mooreOffsets.map fun d => cellAt g ((r : Int) + d.1) ((c : Int) + d.2)).sum

/-- A grid is rectangular of shape `h × w`. -/
def rectGrid (g : List (List Int)) (h w : Nat) : Prop :=
  g.length = h ∧ ∀ row ∈ g, row.length = w

theorem getD_of_lt {α : Type _} (l : List α) (n : Nat) (d : α)
    (h : n < l.length) : l.getD n d = l.get ⟨n, h⟩ := by
  simp [List.getD_eq_getElem?_getD, List.getElem?_eq_getElem h]

theorem getD_of_le {α : Type _} (l : List α) (n : Nat) (d : α)
    (h : l.length ≤ n) : l.getD n d = d := by
  simp [List.getD_eq_getElem?_getD, List.getElem?_eq_none h]

theorem cellAt_out_left {g : List (List Int)} {r c : Int} (h : r < 0) :
    cellAt g r c = 0 := by
  unfold cellAt
  rw [if_neg (by omega)]

theorem cellAt_out_top {g : List (List Int)} {r c : Int} (h : c < 0) :
    cellAt g r c = 0 := by
  unfold cellAt
  rw [if_neg (by omega)]

theorem cellAt_out_rows {g : List (List Int)} {h w : Nat} {r c : Int}
    (hg : rectGrid g h w) (hr : (h : Int) ≤ r) : cellAt g r c = 0 := by
  have hlen : g.length ≤ r.toNat := by rw [hg.1]; omega
  unfold cellAt
  split
  · rw [getD_of_le _ _ _ hlen, List.getD_nil]
  · rfl

theorem cellAt_out_cols {g : List (List Int)} {h w : Nat} {r c : Int}
    (hg : rectGrid g h w) (hc : (w : Int) ≤ c) : cellAt g r c = 0 := by
  unfold cellAt
  split
  · rename_i hp
    by_cases hr : r.toNat < g.length
    · have hrow : (g.get ⟨r.toNat, hr⟩).length ≤ c.toNat := by
        rw [hg.2 _ (g.get_mem r.toNat hr)]
        omega
      rw [getD_of_lt _ _ _ hr, getD_of_le _ _ _ hrow]
    · rw [getD_of_le g r.toNat [] (by omega), List.getD_nil]
  · rfl

/-- Under the shape invariant, a padded-array read is just a shifted plain
read: `padded[a][b] = grid[a-1][b-1]` with zeros outside. -/
theorem paddedAt_eq_cellAt {g : List (List Int)} {h w : Nat}
    (hg : rectGrid g h w) (a b : Nat) :
    paddedAt g h w a b = cellAt g ((a : Int) - 1) ((b : Int) - 1) := by
  unfold paddedAt
  split
  · rfl
  · rename_i hp
    rcases Nat.eq_zero_or_pos a with ha | ha
    · rw [cellAt_out_left (show ((a : Int) - 1 : Int) < 0 by omega)]
    rcases Nat.eq_zero_or_pos b with hb | hb
    · rw [cellAt_out_top (show ((b : Int) - 1 : Int) < 0 by omega)]
    by_cases hah : a ≤ h
    · rw [cellAt_out_cols hg (show (w : Int) ≤ (b : Int) - 1 by omega)]
    · rw [cellAt_out_rows hg (show (h : Int) ≤ (a : Int) - 1 by omega)]

/-- The sliced-sum neighbor count of the source equals the Moore-neighborhood
count of the specification, for in-bounds cells of a rectangular grid. -/
theorem count_neighbors_eq_moore {g : List (List Int)} {h w : Nat}
    (hg : rectGrid g h w) (r c : Nat) :
    count_neighbors g h w r c = specMooreCount g r c := by
  have h3 : List.range 3 = [0, 1, 2] := rfl
  simp only [count_neighbors, specMooreCount, mooreOffsets, h3, List.map_cons,
    List.map_nil, List.sum_cons, List.sum_nil]
  norm_num
  rw [paddedAt_eq_cellAt hg, paddedAt_eq_cellAt hg, paddedAt_eq_cellAt hg,
    paddedAt_eq_cellAt hg, paddedAt_eq_cellAt hg, paddedAt_eq_cellAt hg,
    paddedAt_eq_cellAt hg, paddedAt_eq_cellAt hg]
  push_cast
  ring_nf

theorem cellAt_map_range {h w : Nat} (f : Nat → Nat → Int) (r c : Nat)
    (hr : r < h) (hc : c < w) :
    cellAt ((List.range h).map fun i => (List.range w).map fun j => f i j)
      (r : Int) (c : Int) = f r c := by
  unfold cellAt
  rw [if_pos ⟨Int.natCast_nonneg r, Int.natCast_nonneg c⟩]
  simp [Int.toNat_natCast, List.getElem?_range, hr, hc]

/-- `clamp_offsets` (lines 143-150): clamp each offset into
`[0, max(0, total − viewport)]`, where the vertical viewport excludes the
50-pixel UI strip. -/
def clamp_offsets (s : GameState) : GameState :=
  let total_w : Int := (s.width : Int) * s.cell_size
  let total_h : Int := (s.height : Int) * s.cell_size
  let max_x := max 0 (total_w - s.screen_width)
  let max_y := max 0 (total_h - (s.screen_height - 50))
  { s with offset_x := max 0 (min s.offset_x max_x),
           offset_y := max 0 (min s.offset_y max_y) }

/-- Python `int(x)`: truncation toward zero. -/
def pyTrunc (q : ℚ) : Int := if 0 ≤ q then ⌊q⌋ else ⌈q⌉

/-- `zoom_at` (lines 152-168).  The focus grid coordinate is computed with
float division from the old cell size; the new cell size is stored as given
(no clamping happens here — the caller clamps before calling, lines 218-222);
the new offsets are `int(grid_x * new_cell_size - focus_x)`; finally
`clamp_offsets` runs. -/
def zoom_at (s : GameState) (focus_x focus_y new_cell_size : Int) : GameState :=
  if new_cell_size = s.cell_size then s
  else
    let grid_x : ℚ := ((focus_x : ℚ) + (s.offset_x : ℚ)) / (s.cell_size : ℚ)
    let grid_y : ℚ := ((focus_y : ℚ) + (s.offset_y : ℚ)) / (s.cell_size : ℚ)
    clamp_offsets { s with
      cell_size := new_cell_size,
      offset_x := pyTrunc (grid_x * (new_cell_size : ℚ) - (focus_x : ℚ)),
      offset_y := pyTrunc (grid_y * (new_cell_size : ℚ) - (focus_y : ℚ)) }

/-- Screen-pixel to grid-cell mapping `(grid_x, grid_y)`, i.e. `(col, row)`,
as computed in `handle_mouse` (lines 174-175); Python `//` is floor
division. -/
def screenToGrid (s : GameState) (x y : Int) : Int × Int :=
  ((x + s.offset_x).fdiv s.cell_size, (y + s.offset_y).fdiv s.cell_size)

/-- Grid-cell to screen-pixel mapping for cell column `x`, row `y`, as
computed in `draw_grid` (lines 100-101). -/
def gridToScreen (s : GameState) (x y : Int) : Int × Int :=
  (x * s.cell_size - s.offset_x, y * s.cell_size - s.offset_y)

/-- Write `v` at row `r`, column `c`; out-of-range writes are no-ops
(`List.set` ignores them; in-bounds use matches `self.grid[r, c] = v`). -/
def setCell (g : List (List Int)) (r c : Nat) (v : Int) : List (List Int) :=
  g.set r ((g.getD r []).set c v)

/-- `handle_mouse` (lines 170-177): ignore clicks in the bottom 50-pixel UI
strip; otherwise map the pixel to a grid cell and, if it is in bounds, flip
it via `grid[y, x] = 1 - grid[y, x]`. -/
def handle_mouse (s : GameState) (x y : Int) : GameState :=
  if y < s.screen_height - 50 then
    let grid_x := (x + s.offset_x).fdiv s.cell_size
    let grid_y := (y + s.offset_y).fdiv s.cell_size
    if 0 ≤ grid_x ∧ grid_x < (s.width : Int) ∧ 0 ≤ grid_y ∧ grid_y < (s.height : Int)
    then
      let v := 1 - cellAt s.grid grid_y grid_x
      { s with grid := setCell s.grid grid_y.toNat grid_x.toNat v }
    else s
  else s

/-- `K_LEFT` handler (line 201). -/
def panLeft (s : GameState) : GameState :=
  { s with offset_x := max 0 (s.offset_x - s.pan_speed) }

/-- `K_RIGHT` handler (lines 203-204). -/
def panRight (s : GameState) : GameState :=
  clamp_offsets { s with offset_x := s.offset_x + s.pan_speed }

/-- `K_UP` handler (line 206). -/
def panUp (s : GameState) : GameState :=
  { s with offset_y := max 0 (s.offset_y - s.pan_speed) }

/-- `K_DOWN` handler (lines 208-209). -/
def panDown (s : GameState) : GameState :=
  clamp_offsets { s with offset_y := s.offset_y + s.pan_speed }

/-- `VIDEORESIZE` handler (lines 224-231): store the new window size and
re-clamp the offsets. -/
def resize (s : GameState) (w h : Int) : GameState :=
  clamp_offsets { s with screen_width := w, screen_height := h }

/-- Errors of the spec's taxonomy, §7; in the source both surface as numpy
`ValueError`s raised by `np.random.choice`. -/
inductive GolError where
  | invalidDimension
  | invalidProbability
deriving Repr, DecidableEq

/-- The sampled grid: cell `(r, c)` is ALIVE exactly when the random oracle
says so. -/
def randomGrid (h w : Nat) (fill : Nat → Nat → Bool) : List (List Int) :=
  (List.range h).map fun r => (List.range w).map fun c => if fill r c then 1 else 0

/-- Model of `np.random.choice([0, 1], size=(h, w), p=[1 - d, d])`
(lines 20-22 and 129-133).  numpy raises `ValueError` when an entry of `p`
is negative (`d < 0` makes `p[1] < 0`; `d > 1` makes `p[0] < 0`) and when a
dimension is negative; a zero dimension is accepted and yields an empty
array.  The sampled bits come from the injected oracle `fill`.  When both
the probability and a dimension are invalid this model reports the
probability error; no claim depends on that order. -/
def npChoiceGrid (h w : Int) (density : ℚ) (fill : Nat → Nat → Bool) :
    Except GolError (List (List Int)) :=
  if density < 0 ∨ 1 < density then .error .invalidProbability
  else if h < 0 ∨ w < 0 then .error .invalidDimension
  else .ok (randomGrid h.toNat w.toNat fill)

/-- `__init__` (lines 7-54): sample the grid (any numpy `ValueError` aborts
construction) and set up the initial state. -/
def init_state (width height cell_size : Int) (density : ℚ)
    (fill : Nat → Nat → Bool) : Except GolError GameState :=
  (npChoiceGrid height width density fill).map fun g =>
    { width := width.toNat, height := height.toNat, cell_size := cell_size,
      grid := g,
      screen_width := width * cell_size,
      screen_height := height * cell_size + 50,
      running := true, paused := true, generation := 0, fps := 10,
      offset_x := 0, offset_y := 0, pan_speed := 32,
      min_cell_size := 1, max_cell_size := 32 }

/-- `reset` (lines 127-135): re-sample the grid at the current dimensions,
reset the generation counter, pause. -/
def reset (s : GameState) (density : ℚ) (fill : Nat → Nat → Bool) :
    Except GolError GameState :=
  (npChoiceGrid (s.height : Int) (s.width : Int) density fill).map fun g =>
    { s with grid := g, generation := 0, paused := true }

/-- `clear` (lines 137-141): `np.zeros((height, width))`, reset the
generation counter, pause. -/
def clear (s : GameState) : GameState :=
  { s with grid := List.replicate s.height (List.replicate s.width 0),
           generation := 0, paused := true }

/-- The offset invariant of the spec: each offset lies in
`[0, max(0, totalPixelExtent − viewportPixelExtent)]` for its axis (the
vertical viewport extent excludes the 50-pixel UI strip). -/
def offsetsInBounds (s : GameState) : Prop :=
  0 ≤ s.offset_x ∧
  s.offset_x ≤ max 0 ((s.width : Int) * s.cell_size - s.screen_width) ∧
  0 ≤ s.offset_y ∧
  s.offset_y ≤ max 0 ((s.height : Int) * s.cell_size - (s.screen_height - 50))

instance (s : GameState) : Decidable (offsetsInBounds s) := by
  unfold offsetsInBounds
  infer_instance

/-- Round half to even, as Python's builtin `round` does. -/
def pyRound (q : ℚ) : Int :=
  if q - ⌊q⌋ < 1 / 2 then ⌊q⌋
  else if 1 / 2 < q - ⌊q⌋ then ⌊q⌋ + 1
  else if ⌊q⌋ % 2 = 0 then ⌊q⌋ else ⌊q⌋ + 1

/-- Spec-side definition, following the claim's words for `zoomAt`:
clamp the new cell size into `[minCellSize, maxCellSize]`, set
`offsetX = round(gridX * newCellSize) − focusX` (likewise Y), then clamp the
offsets. -/
def specZoomAt (s : GameState) (focus_x focus_y new_cell_size : Int) :
    GameState :=
  if new_cell_size = s.cell_size then s
  else
    let grid_x : ℚ := ((focus_x : ℚ) + (s.offset_x : ℚ)) / (s.cell_size : ℚ)
    let grid_y : ℚ := ((focus_y : ℚ) + (s.offset_y : ℚ)) / (s.cell_size : ℚ)
    let ns := max s.min_cell_size (min new_cell_size s.max_cell_size)
    clamp_offsets { s with
      cell_size := ns,
      offset_x := pyRound (grid_x * (ns : ℚ)) - focus_x,
      offset_y := pyRound (grid_y * (ns : ℚ)) - focus_y }

instance (g : List (List Int)) (h w : Nat) : Decidable (rectGrid g h w) := by
  unfold rectGrid
  infer_instance

/-- A small concrete state (a 3 × 3 grid holding a vertical blinker) used to
instantiate hypotheses at concrete inputs. -/
def sampleState : GameState :=
  { width := 3, height := 3, cell_size := 8,
    grid := [[0, 1, 0], [0, 1, 0], [0, 1, 0]],
    screen_width := 24, screen_height := 74,
    running := true, paused := true, generation := 0, fps := 10,
    offset_x := 0, offset_y := 0, pan_speed := 32,
    min_cell_size := 1, max_cell_size := 32 }

/-- The state `reset sampleState 0 (fun _ _ => false)` produces. -/
def sampleReset : GameState :=
  { sampleState with grid := [[0, 0, 0], [0, 0, 0], [0, 0, 0]],
                     generation := 0, paused := true }

/-- C1: `step` produces a grid in which each cell is ALIVE iff (it was ALIVE
and its Moore-neighborhood count of ALIVE neighbors over the previous
generation, out-of-bounds cells counted DEAD, is 2 or 3) or (it was DEAD and
that count is exactly 3); and `step` increments the generation counter by
exactly 1. -/
theorem step_moore_rule (s : GameState)
    (hg : rectGrid s.grid s.height s.width)
    (_hcell : ∀ row ∈ s.grid, ∀ v ∈ row, v = 0 ∨ v = 1)
    (r c : Nat) (hr : r < s.height) (hc : c < s.width) :
    (cellAt (step s).grid (r : Int) (c : Int) = 1 ↔
      ((cellAt s.grid (r : Int) (c : Int) = 1 ∧
          (specMooreCount s.grid r c = 2 ∨ specMooreCount s.grid r c = 3)) ∨
        (cellAt s.grid (r : Int) (c : Int) = 0 ∧
          specMooreCount s.grid r c = 3)))
    ∧ (step s).generation = s.generation + 1 := by
  refine ⟨?_, rfl⟩
  have hstep : cellAt (step s).grid (r : Int) (c : Int)
      = nextCell s.grid s.height s.width r c := cellAt_map_range _ r c hr hc
  rw [hstep]
  simp only [nextCell]
  rw [count_neighbors_eq_moore hg]
  split
  · rename_i hp
    exact iff_of_true rfl hp
  · rename_i hp
    exact iff_of_false (by decide) hp

theorem step_moore_rule_witness :
    (cellAt (step sampleState).grid ((1 : Nat) : Int) ((1 : Nat) : Int) = 1 ↔
      ((cellAt sampleState.grid ((1 : Nat) : Int) ((1 : Nat) : Int) = 1 ∧
          (specMooreCount sampleState.grid 1 1 = 2 ∨
            specMooreCount sampleState.grid 1 1 = 3)) ∨
        (cellAt sampleState.grid ((1 : Nat) : Int) ((1 : Nat) : Int) = 0 ∧
          specMooreCount sampleState.grid 1 1 = 3)))
    ∧ (step sampleState).generation = sampleState.generation + 1 :=
  step_moore_rule sampleState (by decide) (by decide) 1 1 (by decide) (by decide)

/-- C9: `clamp_offsets` is idempotent: applying it twice yields the same
offsets (indeed the same state) as applying it once. -/
theorem clamp_offsets_idem (s : GameState) :
    clamp_offsets (clamp_offsets s) = clamp_offsets s := by
  unfold clamp_offsets
  simp only [GameState.mk.injEq, and_true, true_and]
  constructor <;> omega

/-- C10: a mouse click whose y coordinate lies in the bottom 50-pixel UI
strip (`y ≥ screen_height − 50`) leaves the entire state unchanged, whatever
cell its screen-to-grid mapping would name. -/
theorem handle_mouse_ui_strip (s : GameState) (x y : Int)
    (hy : s.screen_height - 50 ≤ y) : handle_mouse s x y = s := by
  unfold handle_mouse
  rw [if_neg (by omega)]

theorem handle_mouse_ui_strip_witness :
    handle_mouse sampleState 0 100 = sampleState :=
  handle_mouse_ui_strip sampleState 0 100 (by decide)

/-- C6: after a successful `reset` and after `clear`, `paused` is true and
the generation counter is 0; `clear` additionally sets every cell DEAD and
leaves the grid dimensions unchanged. -/
theorem reset_clear_postconditions (s : GameState) (density : ℚ)
    (fill : Nat → Nat → Bool) (s2 : GameState)
    (hres : reset s density fill = Except.ok s2) :
    (s2.paused = true ∧ s2.generation = 0) ∧
    (clear s).paused = true ∧ (clear s).generation = 0 ∧
    (clear s).width = s.width ∧ (clear s).height = s.height ∧
    (clear s).grid.length = s.height ∧
    (∀ row ∈ (clear s).grid, row.length = s.width) ∧
    (∀ row ∈ (clear s).grid, ∀ v ∈ row, v = 0) := by
  refine ⟨?_, rfl, rfl, rfl, rfl, by simp [clear], ?_, ?_⟩
  · unfold reset at hres
    cases hnp : npChoiceGrid (s.height : Int) (s.width : Int) density fill with
    | error e =>
      rw [hnp] at hres
      simp [Except.map] at hres
    | ok g =>
      rw [hnp] at hres
      simp only [Except.map, Except.ok.injEq] at hres
      rw [← hres]
      exact ⟨rfl, rfl⟩
  · intro row hrow
    rw [List.eq_of_mem_replicate hrow]
    simp
  · intro row hrow v hv
    rw [List.eq_of_mem_replicate hrow] at hv
    exact List.eq_of_mem_replicate hv

theorem reset_clear_postconditions_witness :
    ((sampleReset.paused = true ∧ sampleReset.generation = 0) ∧
      (clear sampleState).paused = true ∧
      (clear sampleState).generation = 0 ∧
      (clear sampleState).width = sampleState.width ∧
      (clear sampleState).height = sampleState.height ∧
      (clear sampleState).grid.length = sampleState.height ∧
      (∀ row ∈ (clear sampleState).grid, row.length = sampleState.width) ∧
      (∀ row ∈ (clear sampleState).grid, ∀ v ∈ row, v = 0)) :=
  reset_clear_postconditions sampleState 0 (fun _ _ => false) sampleReset rfl

theorem offsetsInBounds_clamp (s : GameState) :
    offsetsInBounds (clamp_offsets s) := by
  unfold offsetsInBounds clamp_offsets
  simp only []
  refine ⟨?_, ?_, ?_, ?_⟩ <;> omega

/-- C5: the offsets are never negative and, assuming the invariant held
before, every offset-changing operation (pan in each direction, `zoom_at`,
window resize) leaves each offset in
`[0, max(0, totalPixelExtent − viewportPixelExtent)]` for its axis.
`pan_speed` is the constant 32 in the program; only its nonnegativity is
needed. -/
theorem offsets_invariant (s : GameState) (hinv : offsetsInBounds s)
    (hpan : 0 ≤ s.pan_speed) (fx fy n wn hn : Int) :
    offsetsInBounds (panLeft s) ∧ offsetsInBounds (panRight s) ∧
    offsetsInBounds (panUp s) ∧ offsetsInBounds (panDown s) ∧
    offsetsInBounds (zoom_at s fx fy n) ∧ offsetsInBounds (resize s wn hn) := by
  obtain ⟨h1, h2, h3, h4⟩ := hinv
  refine ⟨?_, offsetsInBounds_clamp _, ?_, offsetsInBounds_clamp _, ?_,
    offsetsInBounds_clamp _⟩
  · unfold offsetsInBounds panLeft
    simp only []
    refine ⟨le_max_left _ _, ?_, h3, h4⟩
    exact max_le (le_max_left _ _) (le_trans (by omega) h2)
  · unfold offsetsInBounds panUp
    simp only []
    refine ⟨h1, h2, le_max_left _ _, ?_⟩
    exact max_le (le_max_left _ _) (le_trans (by omega) h4)
  · unfold zoom_at
    split
    · exact ⟨h1, h2, h3, h4⟩
    · exact offsetsInBounds_clamp _

theorem offsets_invariant_witness :
    offsetsInBounds (panLeft sampleState) ∧
    offsetsInBounds (panRight sampleState) ∧
    offsetsInBounds (panUp sampleState) ∧
    offsetsInBounds (panDown sampleState) ∧
    offsetsInBounds (zoom_at sampleState 0 0 4) ∧
    offsetsInBounds (resize sampleState 30 80) :=
  offsets_invariant sampleState (by decide) (by decide) 0 0 4 30 80

/-- C8: mapping an in-bounds cell to screen pixels and back returns the same
cell, for any cell size ≥ 1 and any offsets (the mapping is exact, including
at cell size 1). -/
theorem screen_grid_round_trip (s : GameState) (r c : Nat)
    (_hr : r < s.height) (_hc : c < s.width) (hcs : 1 ≤ s.cell_size) :
    screenToGrid s (gridToScreen s (c : Int) (r : Int)).1
      (gridToScreen s (c : Int) (r : Int)).2 = ((c : Int), (r : Int)) := by
  simp only [screenToGrid, gridToScreen, sub_add_cancel, Prod.mk.injEq]
  exact ⟨Int.mul_fdiv_cancel _ (by omega), Int.mul_fdiv_cancel _ (by omega)⟩

theorem screen_grid_round_trip_witness :
    screenToGrid sampleState
      (gridToScreen sampleState ((2 : Nat) : Int) ((1 : Nat) : Int)).1
      (gridToScreen sampleState ((2 : Nat) : Int) ((1 : Nat) : Int)).2
      = (((2 : Nat) : Int), ((1 : Nat) : Int)) :=
  screen_grid_round_trip sampleState 1 2 (by decide) (by decide) (by decide)

theorem rectGrid_setCell {g : List (List Int)} {h w : Nat}
    (hg : rectGrid g h w) {R : Nat} (C : Nat) (hR : R < h) (v : Int) :
    rectGrid (setCell g R C v) h w := by
  have hRl : R < g.length := by rw [hg.1]; omega
  refine ⟨by simpa [setCell] using hg.1, ?_⟩
  intro row hrow
  rcases List.mem_or_eq_of_mem_set hrow with hmem | heq
  · exact hg.2 _ hmem
  · subst heq
    rw [List.length_set, getD_of_lt _ _ _ hRl]
    exact hg.2 _ (g.get_mem _ hRl)

theorem cellAt_setCell_self {g : List (List Int)} {h w : Nat}
    (hg : rectGrid g h w) {r c : Int}
    (hr0 : 0 ≤ r) (hrh : r < (h : Int)) (hc0 : 0 ≤ c) (hcw : c < (w : Int))
    (v : Int) : cellAt (setCell g r.toNat c.toNat v) r c = v := by
  have hrl : r.toNat < g.length := by rw [hg.1]; omega
  have hrow : (g.getD r.toNat []).length = w := by
    rw [getD_of_lt _ _ _ hrl]
    exact hg.2 _ (g.get_mem _ hrl)
  unfold cellAt setCell
  rw [if_pos ⟨hr0, hc0⟩]
  have hrowset : (g.set r.toNat ((g.getD r.toNat []).set c.toNat v)).getD
      r.toNat [] = (g.getD r.toNat []).set c.toNat v := by
    rw [List.getD_eq_getElem?_getD, List.getElem?_set_self hrl,
      Option.getD_some]
  rw [hrowset, List.getD_eq_getElem?_getD,
    List.getElem?_set_self (show c.toNat < (g.getD r.toNat []).length by
      rw [hrow]; omega),
    Option.getD_some]

theorem cellAt_setCell_other {g : List (List Int)} {h w : Nat}
    (hg : rectGrid g h w) {R C : Nat} (hR : R < h) (_hC : C < w) (v : Int)
    (r c : Int) (hne : ¬(r = (R : Int) ∧ c = (C : Int))) :
    cellAt (setCell g R C v) r c = cellAt g r c := by
  have hset := rectGrid_setCell hg C hR v
  by_cases hr0 : 0 ≤ r
  case neg =>
    rw [cellAt_out_left (show r < 0 by omega),
      cellAt_out_left (show r < 0 by omega)]
  by_cases hc0 : 0 ≤ c
  case neg =>
    rw [cellAt_out_top (show c < 0 by omega),
      cellAt_out_top (show c < 0 by omega)]
  by_cases hrh : r < (h : Int)
  case neg =>
    rw [cellAt_out_rows hset (by omega), cellAt_out_rows hg (by omega)]
  by_cases hcw : c < (w : Int)
  case neg =>
    rw [cellAt_out_cols hset (by omega), cellAt_out_cols hg (by omega)]
  have hrl : r.toNat < g.length := by rw [hg.1]; omega
  unfold cellAt setCell
  rw [if_pos ⟨hr0, hc0⟩, if_pos ⟨hr0, hc0⟩]
  by_cases hrR : r.toNat = R
  · have hcC : c.toNat ≠ C := by
      intro hcon
      exact hne ⟨by omega, by omega⟩
    have hRl : R < g.length := by omega
    have hrowset : (g.set R ((g.getD R []).set C v)).getD r.toNat []
        = (g.getD R []).set C v := by
      rw [hrR, List.getD_eq_getElem?_getD, List.getElem?_set_self hRl,
        Option.getD_some]
    have hcolset : ((g.getD R []).set C v).getD c.toNat 0
        = (g.getD R []).getD c.toNat 0 := by
      rw [List.getD_eq_getElem?_getD, List.getElem?_set_ne (Ne.symm hcC),
        ← List.getD_eq_getElem?_getD]
    rw [hrowset, hcolset, hrR]
  · have hrows : (g.set R ((g.getD R []).set C v)).getD r.toNat []
        = g.getD r.toNat [] := by
      rw [List.getD_eq_getElem?_getD,
        List.getElem?_set_ne (show R ≠ r.toNat from fun hco => hrR hco.symm),
        ← List.getD_eq_getElem?_getD]
    rw [hrows]

/-- C7: a toggle whose target grid coordinate is out of bounds is a silent
no-op leaving the whole state unchanged; a click in the grid area whose
target cell is in bounds flips exactly that cell (`1 - old`) and no other. -/
theorem toggle_cell_behavior (s : GameState) (x y : Int)
    (hg : rectGrid s.grid s.height s.width) :
    (¬ (0 ≤ (screenToGrid s x y).1 ∧ (screenToGrid s x y).1 < (s.width : Int) ∧
        0 ≤ (screenToGrid s x y).2 ∧ (screenToGrid s x y).2 < (s.height : Int)) →
      handle_mouse s x y = s) ∧
    (y < s.screen_height - 50 →
      (0 ≤ (screenToGrid s x y).1 ∧ (screenToGrid s x y).1 < (s.width : Int) ∧
        0 ≤ (screenToGrid s x y).2 ∧ (screenToGrid s x y).2 < (s.height : Int)) →
      cellAt (handle_mouse s x y).grid (screenToGrid s x y).2
          (screenToGrid s x y).1
        = 1 - cellAt s.grid (screenToGrid s x y).2 (screenToGrid s x y).1 ∧
      (∀ r c : Int,
        ¬(r = (screenToGrid s x y).2 ∧ c = (screenToGrid s x y).1) →
        cellAt (handle_mouse s x y).grid r c = cellAt s.grid r c)) := by
  simp only [screenToGrid]
  constructor
  · intro hob
    by_cases hy : y < s.screen_height - 50
    · simp only [handle_mouse, if_pos hy, if_neg hob]
    · simp only [handle_mouse, if_neg hy]
  · intro hy hib
    simp only [handle_mouse]
    rw [if_pos hy, if_pos hib]
    simp only []
    obtain ⟨h1, h2, h3, h4⟩ := hib
    constructor
    · exact cellAt_setCell_self hg h3 (by omega) h1 (by omega) _
    · intro r c hne
      have hgx : (((x + s.offset_x).fdiv s.cell_size).toNat : Int)
          = (x + s.offset_x).fdiv s.cell_size := Int.toNat_of_nonneg h1
      have hgy : (((y + s.offset_y).fdiv s.cell_size).toNat : Int)
          = (y + s.offset_y).fdiv s.cell_size := Int.toNat_of_nonneg h3
      refine cellAt_setCell_other hg (by omega) (by omega) _ r c ?_
      rw [hgy, hgx]
      exact hne

theorem toggle_cell_behavior_witness :
    (¬ (0 ≤ (screenToGrid sampleState 0 400).1 ∧
        (screenToGrid sampleState 0 400).1 < (sampleState.width : Int) ∧
        0 ≤ (screenToGrid sampleState 0 400).2 ∧
        (screenToGrid sampleState 0 400).2 < (sampleState.height : Int)) →
      handle_mouse sampleState 0 400 = sampleState) ∧
    (400 < sampleState.screen_height - 50 →
      (0 ≤ (screenToGrid sampleState 0 400).1 ∧
        (screenToGrid sampleState 0 400).1 < (sampleState.width : Int) ∧
        0 ≤ (screenToGrid sampleState 0 400).2 ∧
        (screenToGrid sampleState 0 400).2 < (sampleState.height : Int)) →
      cellAt (handle_mouse sampleState 0 400).grid
          (screenToGrid sampleState 0 400).2 (screenToGrid sampleState 0 400).1
        = 1 - cellAt sampleState.grid (screenToGrid sampleState 0 400).2
            (screenToGrid sampleState 0 400).1 ∧
      (∀ r c : Int,
        ¬(r = (screenToGrid sampleState 0 400).2 ∧
            c = (screenToGrid sampleState 0 400).1) →
        cellAt (handle_mouse sampleState 0 400).grid r c
          = cellAt sampleState.grid r c)) :=
  toggle_cell_behavior sampleState 0 400 (by decide)

/-- A viewport state mid-zoom: 100 × 100 grid, cell size 4, offsets
(11, 0), a 100 × 150 window. -/
def zoomStateA : GameState :=
  { width := 100, height := 100, cell_size := 4, grid := [],
    screen_width := 100, screen_height := 150, running := true, paused := true,
    generation := 0, fps := 10, offset_x := 11, offset_y := 0, pan_speed := 32,
    min_cell_size := 1, max_cell_size := 32 }

/-- Like `zoomStateA`, but on a 1000 × 1000 grid so that zooming out to cell
size 1 leaves room to scroll. -/
def zoomStateB : GameState := { zoomStateA with width := 1000, height := 1000 }

theorem zoom_at_cell_size (s : GameState) (fx fy n : Int) :
    (zoom_at s fx fy n).cell_size = n := by
  unfold zoom_at
  split
  · rename_i hsame
    exact hsame.symm
  · rfl

/-- C2 (amended): when the requested cell size differs from the current one,
`zoom_at` computes the focus point's fractional grid coordinate with the old
cell size and offsets, stores the new cell size as given (without clamping;
the caller clamps before calling), sets each offset to the toward-zero
truncation `int(gridX * newCellSize − focusX)`, and then invokes
`clamp_offsets`. -/
theorem zoom_at_algorithm (s : GameState) (fx fy n : Int)
    (hne : n ≠ s.cell_size) :
    zoom_at s fx fy n = clamp_offsets { s with
      cell_size := n,
      offset_x := pyTrunc ((((fx : ℚ) + (s.offset_x : ℚ)) * (n : ℚ))
        / (s.cell_size : ℚ) - (fx : ℚ)),
      offset_y := pyTrunc ((((fy : ℚ) + (s.offset_y : ℚ)) * (n : ℚ))
        / (s.cell_size : ℚ) - (fy : ℚ)) } := by
  simp only [zoom_at, if_neg hne]
  have hx : ((fx : ℚ) + (s.offset_x : ℚ)) / (s.cell_size : ℚ) * (n : ℚ)
        - (fx : ℚ)
      = (((fx : ℚ) + (s.offset_x : ℚ)) * (n : ℚ)) / (s.cell_size : ℚ)
        - (fx : ℚ) := by
    ring
  have hy : ((fy : ℚ) + (s.offset_y : ℚ)) / (s.cell_size : ℚ) * (n : ℚ)
        - (fy : ℚ)
      = (((fy : ℚ) + (s.offset_y : ℚ)) * (n : ℚ)) / (s.cell_size : ℚ)
        - (fy : ℚ) := by
    ring
  rw [hx, hy]

theorem zoom_at_algorithm_witness :
    zoom_at sampleState 0 0 4 = clamp_offsets { sampleState with
      cell_size := 4,
      offset_x := pyTrunc ((((0 : Int) : ℚ) + (sampleState.offset_x : ℚ))
        * ((4 : Int) : ℚ) / (sampleState.cell_size : ℚ) - ((0 : Int) : ℚ)),
      offset_y := pyTrunc ((((0 : Int) : ℚ) + (sampleState.offset_y : ℚ))
        * ((4 : Int) : ℚ) / (sampleState.cell_size : ℚ) - ((0 : Int) : ℚ)) } :=
  zoom_at_algorithm sampleState 0 0 4 (by decide)

/-- C2 counterexample: at `zoomStateA` a request for cell size 50 is stored
unclamped (50, not 32), and at `zoomStateB` a zoom to cell size 1 truncates
`2.75` to offset 2 where the claimed rounding yields 3; in both cases the
resulting state differs from the claim's description (`specZoomAt`). -/
theorem zoom_at_spec_counterexample :
    zoom_at zoomStateA 0 0 50 ≠ specZoomAt zoomStateA 0 0 50 ∧
    zoom_at zoomStateB 0 0 1 ≠ specZoomAt zoomStateB 0 0 1 := by
  constructor
  · intro hcon
    have h1 : (zoom_at zoomStateA 0 0 50).cell_size = 50 := rfl
    have h2 : (specZoomAt zoomStateA 0 0 50).cell_size = 32 := rfl
    rw [hcon, h2] at h1
    exact absurd h1 (by decide)
  · intro hcon
    have hfl2 : (⌊(11 : ℚ) / 4⌋ : Int) = 2 := by
      norm_num [Int.floor_eq_iff]
    have h1 : (zoom_at zoomStateB 0 0 1).offset_x = 2 := by
      simp only [zoom_at, zoomStateB, zoomStateA, clamp_offsets]
      norm_num [pyTrunc, hfl2]
    have h2 : (specZoomAt zoomStateB 0 0 1).offset_x = 3 := by
      simp only [specZoomAt, zoomStateB, zoomStateA, clamp_offsets]
      norm_num [pyRound, hfl2]
    rw [hcon, h2] at h1
    exact absurd h1 (by decide)

theorem fdiv_eq_floor (a b : Int) (hb : 0 < b) :
    a.fdiv b = ⌊(a : ℚ) / (b : ℚ)⌋ := by
  have hbn : ((b.toNat : ℕ) : ℤ) = b := Int.toNat_of_nonneg hb.le
  have h2 := Rat.floor_intCast_div_natCast a b.toNat
  rw [Int.fdiv_eq_ediv _ hb.le, ← hbn, Int.cast_natCast, h2]

theorem pyTrunc_bounds (q : ℚ) :
    q - 1 < (pyTrunc q : ℚ) ∧ (pyTrunc q : ℚ) < q + 1 := by
  unfold pyTrunc
  split
  · constructor
    · exact_mod_cast Int.sub_one_lt_floor q
    · have h := Int.floor_le q
      linarith
  · constructor
    · have h := Int.le_ceil q
      linarith
    · exact_mod_cast Int.ceil_lt_add_one q

/-- If an integer `t` lies within distance 1 of `g*n − fx`, then
`⌊(fx + t)/n⌋` lies within distance 1 of `⌊g⌋` (for `n ≥ 1`). -/
theorem floor_shift_close (g : ℚ) (fx n t : Int) (hn : 1 ≤ n)
    (ht1 : g * (n : ℚ) - (fx : ℚ) - 1 < (t : ℚ))
    (ht2 : (t : ℚ) < g * (n : ℚ) - (fx : ℚ) + 1) :
    |⌊((fx : ℚ) + (t : ℚ)) / (n : ℚ)⌋ - ⌊g⌋| ≤ 1 := by
  have hn0 : (0 : ℚ) < (n : ℚ) := by exact_mod_cast (show (0 : Int) < n by omega)
  have hn1 : (1 : ℚ) ≤ (n : ℚ) := by exact_mod_cast hn
  have hx1 : g - 1 < ((fx : ℚ) + (t : ℚ)) / (n : ℚ) := by
    rw [lt_div_iff₀ hn0]
    nlinarith [ht1, hn1]
  have hx2 : ((fx : ℚ) + (t : ℚ)) / (n : ℚ) < g + 1 := by
    rw [div_lt_iff₀ hn0]
    nlinarith [ht2, hn1]
  have hfl : ⌊g⌋ - 1 ≤ ⌊((fx : ℚ) + (t : ℚ)) / (n : ℚ)⌋ := by
    apply Int.le_floor.mpr
    push_cast
    have h := Int.floor_le g
    linarith
  have hfu : ⌊((fx : ℚ) + (t : ℚ)) / (n : ℚ)⌋ < ⌊g⌋ + 2 := by
    apply Int.floor_lt.mpr
    push_cast
    have h := Int.lt_floor_add_one g
    linarith
  rw [abs_le]
  omega

/-- C4 (amended): when the offsets recomputed by `zoom_at` survive the final
`clamp_offsets` unchanged, the focus pixel's grid coordinate moves by at
most 1 on each axis across the zoom. -/
theorem zoom_focus_stability (s : GameState) (fx fy n : Int)
    (hcs : 1 ≤ s.cell_size) (hn : 1 ≤ n)
    (hox : (zoom_at s fx fy n).offset_x
      = pyTrunc ((((fx : ℚ) + (s.offset_x : ℚ)) * (n : ℚ))
          / (s.cell_size : ℚ) - (fx : ℚ)))
    (hoy : (zoom_at s fx fy n).offset_y
      = pyTrunc ((((fy : ℚ) + (s.offset_y : ℚ)) * (n : ℚ))
          / (s.cell_size : ℚ) - (fy : ℚ))) :
    |(screenToGrid (zoom_at s fx fy n) fx fy).1
        - (screenToGrid s fx fy).1| ≤ 1 ∧
    |(screenToGrid (zoom_at s fx fy n) fx fy).2
        - (screenToGrid s fx fy).2| ≤ 1 := by
  have hcell := zoom_at_cell_size s fx fy n
  constructor
  · simp only [screenToGrid]
    rw [hox, hcell, fdiv_eq_floor _ _ (by omega), fdiv_eq_floor _ _ (by omega)]
    push_cast
    set vx : ℚ :=
      (((fx : ℚ) + (s.offset_x : ℚ)) * (n : ℚ)) / (s.cell_size : ℚ) - (fx : ℚ)
      with hvx
    have hb := pyTrunc_bounds vx
    have hgv : ((fx : ℚ) + (s.offset_x : ℚ)) / (s.cell_size : ℚ) * (n : ℚ)
        - (fx : ℚ) = vx := by
      rw [hvx]
      ring
    apply floor_shift_close _ fx n (pyTrunc vx) hn
    · rw [hgv]
      exact hb.1
    · rw [hgv]
      exact hb.2
  · simp only [screenToGrid]
    rw [hoy, hcell, fdiv_eq_floor _ _ (by omega), fdiv_eq_floor _ _ (by omega)]
    push_cast
    set vy : ℚ :=
      (((fy : ℚ) + (s.offset_y : ℚ)) * (n : ℚ)) / (s.cell_size : ℚ) - (fy : ℚ)
      with hvy
    have hb := pyTrunc_bounds vy
    have hgv : ((fy : ℚ) + (s.offset_y : ℚ)) / (s.cell_size : ℚ) * (n : ℚ)
        - (fy : ℚ) = vy := by
      rw [hvy]
      ring
    apply floor_shift_close _ fy n (pyTrunc vy) hn
    · rw [hgv]
      exact hb.1
    · rw [hgv]
      exact hb.2

theorem zoom_focus_stability_witness :
    |(screenToGrid (zoom_at zoomStateB 0 0 8) 0 0).1
        - (screenToGrid zoomStateB 0 0).1| ≤ 1 ∧
    |(screenToGrid (zoom_at zoomStateB 0 0 8) 0 0).2
        - (screenToGrid zoomStateB 0 0).2| ≤ 1 :=
  zoom_focus_stability zoomStateB 0 0 8 (by decide) (by decide)
    (by
      have hfl22 : (⌊(22 : ℚ)⌋ : Int) = 22 := by
        norm_num [Int.floor_eq_iff]
      simp only [zoom_at, zoomStateB, zoomStateA, clamp_offsets]
      norm_num [pyTrunc, hfl22])
    (by
      simp only [zoom_at, zoomStateB, zoomStateA, clamp_offsets]
      norm_num [pyTrunc, Int.floor_zero])

/-- A viewport state scrolled fully right on a 100 × 100 grid at cell
size 2, where zooming out to cell size 1 forces the clamp to snap the
offsets back to 0. -/
def zoomStateC : GameState :=
  { width := 100, height := 100, cell_size := 2, grid := [],
    screen_width := 100, screen_height := 150, running := true, paused := true,
    generation := 0, fps := 10, offset_x := 100, offset_y := 0, pan_speed := 32,
    min_cell_size := 1, max_cell_size := 32 }

/-- C4 counterexample: zooming `zoomStateC` out to the valid cell size 1 at
focus pixel (0, 0) moves that pixel's grid column from 50 to 0 — a jump of
50, not at most 1 — because `clamp_offsets` snaps the recomputed offset to
0 once the whole grid fits in the window. -/
theorem zoom_focus_counterexample :
    ¬ (|(screenToGrid (zoom_at zoomStateC 0 0 1) 0 0).1
        - (screenToGrid zoomStateC 0 0).1| ≤ 1) := by
  have hfl50 : (⌊(50 : ℚ)⌋ : Int) = 50 := by
    norm_num [Int.floor_eq_iff]
  have h1 : (zoom_at zoomStateC 0 0 1).offset_x = 0 := by
    simp only [zoom_at, zoomStateC, clamp_offsets]
    norm_num [pyTrunc, hfl50]
  have h2 : (zoom_at zoomStateC 0 0 1).cell_size = 1 :=
    zoom_at_cell_size zoomStateC 0 0 1
  simp only [screenToGrid, h1, h2]
  decide

theorem randomGrid_shape (h w : Nat) (fill : Nat → Nat → Bool) :
    (randomGrid h w fill).length = h ∧
    (∀ row ∈ randomGrid h w fill, row.length = w) ∧
    (∀ row ∈ randomGrid h w fill, ∀ v ∈ row, v = 0 ∨ v = 1) := by
  refine ⟨by simp [randomGrid], ?_, ?_⟩
  · intro row hrow
    simp only [randomGrid, List.mem_map, List.mem_range] at hrow
    obtain ⟨i, hi, rfl⟩ := hrow
    simp
  · intro row hrow v hv
    simp only [randomGrid, List.mem_map, List.mem_range] at hrow
    obtain ⟨i, hi, rfl⟩ := hrow
    simp only [List.mem_map, List.mem_range] at hv
    obtain ⟨j, hj, rfl⟩ := hv
    by_cases hf : fill i j <;> simp [hf]

/-- C3 (amended): construction fails with the dimension error only for
strictly negative height or width — a zero dimension is accepted and gives
an empty grid; construction and `reset` fail with the probability error for
density outside `[0, 1]`; for valid inputs construction yields exactly
height × width cells, each DEAD (0) or ALIVE (1). -/
theorem init_reset_validation (wd ht cs : Int) (d : ℚ)
    (fill : Nat → Nat → Bool) (s : GameState) :
    ((ht < 0 ∨ wd < 0) → 0 ≤ d → d ≤ 1 →
      init_state wd ht cs d fill = Except.error GolError.invalidDimension) ∧
    ((d < 0 ∨ 1 < d) →
      (init_state wd ht cs d fill
          = Except.error GolError.invalidProbability ∧
        reset s d fill = Except.error GolError.invalidProbability)) ∧
    (0 ≤ ht → 0 ≤ wd → 0 ≤ d → d ≤ 1 →
      ∃ s0, init_state wd ht cs d fill = Except.ok s0 ∧
        s0.grid.length = ht.toNat ∧
        (∀ row ∈ s0.grid, row.length = wd.toNat) ∧
        (∀ row ∈ s0.grid, ∀ v ∈ row, v = 0 ∨ v = 1)) := by
  refine ⟨?_, ?_, ?_⟩
  · intro hdim hd0 hd1
    unfold init_state npChoiceGrid
    rw [if_neg (by simp only [not_or, not_lt]; exact ⟨hd0, hd1⟩),
      if_pos hdim]
    rfl
  · intro hd
    constructor
    · unfold init_state npChoiceGrid
      rw [if_pos hd]
      rfl
    · unfold reset npChoiceGrid
      rw [if_pos hd]
      rfl
  · intro h0 h1 hd0 hd1
    unfold init_state npChoiceGrid
    rw [if_neg (by simp only [not_or, not_lt]; exact ⟨hd0, hd1⟩),
      if_neg (by omega)]
    simp only [Except.map]
    exact ⟨_, rfl, (randomGrid_shape _ _ _).1, (randomGrid_shape _ _ _).2.1,
      (randomGrid_shape _ _ _).2.2⟩

theorem init_reset_validation_witness :
    (init_state 5 (-1) 8 0 (fun _ _ => false)
      = Except.error GolError.invalidDimension) ∧
    ((init_state 5 3 8 2 (fun _ _ => false)
        = Except.error GolError.invalidProbability) ∧
      reset sampleState 2 (fun _ _ => false)
        = Except.error GolError.invalidProbability) ∧
    (∃ s0, init_state 4 3 8 0 (fun _ _ => false) = Except.ok s0 ∧
      s0.grid.length = (3 : Int).toNat ∧
      (∀ row ∈ s0.grid, row.length = (4 : Int).toNat) ∧
      (∀ row ∈ s0.grid, ∀ v ∈ row, v = 0 ∨ v = 1)) :=
  ⟨(init_reset_validation 5 (-1) 8 0 (fun _ _ => false) sampleState).1
      (Or.inl (by decide)) (by decide) (by decide),
    (init_reset_validation 5 3 8 2 (fun _ _ => false) sampleState).2.1
      (Or.inr (by decide)),
    (init_reset_validation 4 3 8 0 (fun _ _ => false) sampleState).2.2
      (by decide) (by decide) (by decide) (by decide)⟩

/-- The state that construction with width 5, height 0, cell size 8 and
density 0 yields. -/
def emptyHeightState : GameState :=
  { width := 5, height := 0, cell_size := 8, grid := [],
    screen_width := 40, screen_height := 50, running := true, paused := true,
    generation := 0, fps := 10, offset_x := 0, offset_y := 0, pan_speed := 32,
    min_cell_size := 1, max_cell_size := 32 }

/-- C3 counterexample: construction with height = 0 (so height ≤ 0) does not
fail with the dimension error — it succeeds, yielding an empty 0 × 5
grid. -/
theorem init_zero_height_counterexample :
    init_state 5 0 8 0 (fun _ _ => false) = Except.ok emptyHeightState ∧
    init_state 5 0 8 0 (fun _ _ => false)
      ≠ Except.error GolError.invalidDimension := by
  have h : init_state 5 0 8 0 (fun _ _ => false)
      = Except.ok emptyHeightState := rfl
  exact ⟨h, fun hcon => Except.noConfusion (h.symm.trans hcon)⟩
